import Mathlib

/-!
Shallow embedding of the v-sandbox-director agent orchestration core.

The definitions below are translated from the Python sources:
  * `src/app/tools/registry.py`   — `ToolRegistry` (register / execute)
  * `src/app/agent/router.py`     — `DirectorRouter.classify`
  * `src/app/tools/render.py`     — the `re_render` handler and its
    per-instance re-render counter (a closure in the source, made an
    explicit state argument here)
  * `src/app/tools/pipeline_replay.py` — the `replay_from_step` handler
    and its per-instance replay counter
  * `src/app/db/session.py`       — the session ledger rows and the three
    write operations used by the loop
  * `src/app/agent/loop.py`       — cost table, tool groups, and
    `SandboxDirector.execute`, modelled as a deterministic function of the
    environment: the model's reply for each iteration and the behaviour of
    each tool backend are inputs (`ModelStep`, `HandlerBehavior`).

External collaborators (the OpenAI call, the HTTP tool backends) are
oracles supplied by the environment, matching the spec's interface
boundary.  Monetary costs are modelled exactly, in units of 10⁻⁸ USD
(`2.50` per 1M tokens = `250` per token in these units); the price table
makes every cost an integer multiple of that unit, so `calculate_cost`
and all budget comparisons are exact naturals (the Python source uses
floats; every claim below is about control flow and exact field values,
not float rounding).  Presentation-only details are elided
and noted next to the definition that elides them: human-readable result
strings of terminal *error events* (kept in the durable ledger where a
claim needs them), the `round(c, 6)` display rounding of costs in events,
and the 10 KB truncation of logged tool results.
-/

namespace VSD

/-! ### JSON values (Python dicts / JSON payloads) -/

/-- JSON value, the shape of tool results and of the router's parsed reply. -/
inductive Json where
  | str (s : String)
  | num (n : Int)
  | bool (b : Bool)
  | null
  | arr (elems : List Json)
  | obj (fields : List (String × Json))
deriving Repr

/-- A Python dict with string keys, as an association list (insertion order kept). -/
abbrev Obj := List (String × Json)

/-- Dictionary lookup: `d.get(k)` / `k in d` on the first matching key. -/
def jget (d : Obj) (k : String) : Option Json :=
  (d.find? (fun p => p.1 == k)).map (fun p => p.2)

/-- Python `"error" in result`: the loop's data-driven failure test. -/
def hasError (d : Obj) : Bool :=
  (jget d "error").isSome

/-- Python truthiness of a JSON value (used by `if err` in the loop). -/
def pyTruthy : Json → Bool
  | .str s => !(s == "")
  | .num n => !(n == 0)
  | .bool b => b
  | .null => false
  | .arr l => !l.isEmpty
  | .obj l => !l.isEmpty

/-- Python `f"{v}"` stringification of a JSON value.  Container rendering
is abbreviated (no claim inspects the rendering of a non-scalar error value). -/
def pyStr : Json → String
  | .str s => s
  | .num n => toString n
  | .bool true => "True"
  | .bool false => "False"
  | .null => "None"
  | .arr _ => "<list>"
  | .obj _ => "<dict>"

/-! ### Tool registry — `src/app/tools/registry.py` -/

/-- Outcome of invoking a tool handler: it either returns a dict or raises
an exception carrying its type name and message. -/
inductive HandlerOutcome where
  | returns (r : Obj)
  | raises (ty msg : String)

/-- A tool handler: named arguments in, outcome out. -/
abbrev Handler := Obj → HandlerOutcome

/-- Python dict assignment `d[k] = v`: replace in place if the key exists,
append otherwise. -/
def dictInsert {α : Type} (d : List (String × α)) (k : String) (v : α) :
    List (String × α) :=
  match d with
  | [] => [(k, v)]
  | (k', v') :: rest =>
      if k' == k then (k', v) :: rest else (k', v') :: dictInsert rest k v

/-- Lookup in a `dictInsert`-maintained association list (`d.get(k)`). -/
def dictGet {α : Type} : List (String × α) → String → Option α
  | [], _ => none
  | (k', v') :: rest, k => if k' == k then some v' else dictGet rest k

/-- OpenAI-format schema entry stored by `ToolRegistry.register`
(description and parameter schema; the constant wrapper is implicit). -/
structure ToolSpec where
  description : String
  parameters : Json
deriving Repr

/-- The registry's two dicts: `_tools` (schemas) and `_handlers`. -/
structure ToolRegistry where
  tools : List (String × ToolSpec)
  handlers : List (String × Handler)

/-- `ToolRegistry.__init__`: both dicts empty. -/
def ToolRegistry.empty : ToolRegistry := ⟨[], []⟩

/-- `ToolRegistry.register`: unconditional dict assignment into `_tools`
and `_handlers` — a duplicate name replaces the earlier entry. -/
def ToolRegistry.register (r : ToolRegistry) (name description : String)
    (parameters : Json) (handler : Handler) : ToolRegistry :=
  { tools := dictInsert r.tools name ⟨description, parameters⟩,
    handlers := dictInsert r.handlers name handler }

/-- `ToolRegistry.execute`: look the handler up; missing name becomes an
error dict, a raised exception becomes an error dict `{type}: {message}`. -/
def ToolRegistry.execute (r : ToolRegistry) (name : String) (args : Obj) : Obj :=
  match dictGet r.handlers name with
  | none => [("error", .str ("Tool \x27" ++ name ++ "\x27 não encontrada"))]
  | some h =>
      match h args with
      | .returns res => res
      | .raises ty msg => [("error", .str (ty ++ ": " ++ msg))]

/-- `ToolRegistry.tool_names`. -/
def ToolRegistry.tool_names (r : ToolRegistry) : List String :=
  r.tools.map (fun p => p.1)

/-! ### Router — `src/app/agent/router.py` -/

/-- Token usage reported by a model call. -/
structure Usage where
  promptTokens : Nat
  completionTokens : Nat
deriving Repr, DecidableEq

/-- What the router's single model call produced, as seen at the end of the
`try` block: either an exception was raised somewhere inside it (network
failure, `json.loads` failure — its message is kept), or the reply's content
parsed to a JSON value plus the reported usage. -/
inductive RouterOutcome where
  | raised (msg : String)
  | parsed (v : Json) (usage : Option Usage)

/-- Closed set of routes accepted by the router. -/
def VALID_ROUTES : List String := ["payload", "replay", "impossible"]

/-- Result of `DirectorRouter.classify` (`reason` is passed through
unvalidated, so it stays a JSON value). -/
structure RouteResult where
  route : String
  reason : Json
  tokens_input : Nat
  tokens_output : Nat

/-- `DirectorRouter.classify` after the model call: a missing or invalid
`route` field falls back to `"payload"`; a non-object reply raises inside
the `try` (attribute error on `.get`) and is caught like a failed call;
a raised call returns the `"payload"` fallback with the failure recorded in
`reason` and zero token counts. -/
def classify : RouterOutcome → RouteResult
  | .raised msg =>
      ⟨"payload", .str ("Router error, fallback: " ++ msg), 0, 0⟩
  | .parsed (.obj fields) usage =>
      let routeVal := (jget fields "route").getD (.str "payload")
      let reasonVal := (jget fields "reason").getD (.str "")
      let route :=
        match routeVal with
        | .str s => if s ∈ VALID_ROUTES then s else "payload"
        | _ => "payload"
      let tin := match usage with | some u => u.promptTokens | none => 0
      let tout := match usage with | some u => u.completionTokens | none => 0
      ⟨route, reasonVal, tin, tout⟩
  | .parsed _ _ =>
      ⟨"payload", .str "Router error, fallback: AttributeError", 0, 0⟩

/-! ### Counted tool handlers — `src/app/tools/render.py`,
`src/app/tools/pipeline_replay.py`

The two state-mutating tools keep a per-registry invocation counter
(`_rerender_count` / `_replay_count`, closures in the source).  The counter
is an explicit argument here; the HTTP backend is an oracle. -/

/-- Behaviour of the render backend for one `re_render` invocation. -/
inductive RenderBackend where
  | fetchFails (code : Nat)
  | postFails (code : Nat) (text : String)
  | raises (ty msg : String)
  | ok
deriving Repr, DecidableEq

/-- Behaviour of the replay backend for one `replay_from_step` invocation. -/
inductive ReplayBackend where
  | badRequest (errField : Option Json)
  | otherFail (code : Nat) (text : String)
  | raises (ty msg : String)
  | ok (newJobId : String)
deriving Repr

/-- The `re_render` limit error dict. -/
def rerenderLimitObj (maxRerenders : Nat) : Obj :=
  [("error", .str ("Limite de re-renders atingido (" ++ toString maxRerenders ++
      "). Não é possível re-renderizar mais nesta sessão.")),
   ("limit_reached", .bool true)]

/-- The `re_render` handler: increment the counter first, answer the limit
error once past the cap (without contacting the backend), otherwise mirror
the two HTTP steps.  Returns (new counter, result dict or raised exception,
whether the backend was contacted). -/
def rerenderHandler (maxRerenders count : Nat) (b : RenderBackend) :
    Nat × HandlerOutcome × Bool :=
  let count' := count + 1
  if maxRerenders < count' then
    (count', .returns (rerenderLimitObj maxRerenders), false)
  else
    match b with
    | .fetchFails code =>
        (count', .returns
          [("error", .str ("Erro ao buscar payload para re-render: " ++ toString code))],
         true)
    | .postFails code text =>
        (count', .returns
          [("error", .str ("Erro no re-render: " ++ toString code ++ " - " ++ text))],
         true)
    | .raises ty msg => (count', .raises ty msg, true)
    | .ok =>
        (count', .returns
          [("success", .bool true),
           ("status", .str "rendering"),
           ("message", .str "Vídeo enviado para re-renderização. Aguarde ~20-30 segundos."),
           ("render_count", .num count'),
           ("remaining_rerenders", .num (maxRerenders - count'))],
         true)

/-- The `replay_from_step` limit error dict. -/
def replayLimitObj (maxReplays : Nat) : Obj :=
  [("error", .str ("Limite de replays atingido (" ++ toString maxReplays ++
      "). Não é possível fazer mais replays nesta sessão.")),
   ("limit_reached", .bool true)]

/-- The `replay_from_step` handler, same counter discipline as
`rerenderHandler`.  The success dict keeps the fields a claim can observe;
informational fields taken verbatim from the backend reply are summarised
by `newJobId`. -/
def replayHandler (maxReplays count : Nat) (b : ReplayBackend) :
    Nat × HandlerOutcome × Bool :=
  let count' := count + 1
  if maxReplays < count' then
    (count', .returns (replayLimitObj maxReplays), false)
  else
    match b with
    | .badRequest errField =>
        (count', .returns
          [("error", errField.getD (.str "Erro de validação")),
           ("success", .bool false)],
         true)
    | .otherFail code text =>
        (count', .returns
          [("error", .str ("Erro no replay: " ++ toString code ++ " - " ++ text))],
         true)
    | .raises ty msg => (count', .raises ty msg, true)
    | .ok newJobId =>
        (count', .returns
          [("success", .bool true),
           ("new_job_id", .str newJobId),
           ("replay_count", .num count'),
           ("remaining_replays", .num (maxReplays - count'))],
         true)

/-! ### Session ledger — `src/app/db/session.py`

The durable store, materialised as the row states the SQL would leave
behind.  Timestamps are reduced to the `completed_at IS NOT NULL` flag the
claims can observe; the 10 KB truncation of logged tool results is elided
(no claim reads a logged result back). -/

/-- One `director_sessions` row; defaults are the column defaults of
`CREATE_TABLES_SQL` plus the values set by `create_session`. -/
structure SessionRow where
  status : String
  result_summary : Option String
  error_message : Option String
  total_iterations : Nat
  total_tool_calls : Nat
  total_sandbox_calls : Nat
  total_rerenders : Nat
  total_tokens_input : Nat
  total_tokens_output : Nat
  total_cost_usd : Nat
  sandbox_total_time_ms : Nat
  completed_at_set : Bool
deriving Repr, DecidableEq

/-- Row state right after `create_session`. -/
def freshSessionRow : SessionRow :=
  ⟨"running", none, none, 0, 0, 0, 0, 0, 0, 0, 0, false⟩

/-- One `director_actions` row (the fields a claim can observe). -/
structure ActionRow where
  iteration : Nat
  action_type : String
  tool_name : Option String
  tool_success : Option Bool
  llm_response_text : Option String
  tokens_input : Nat
  tokens_output : Nat
  cost_usd : Nat
deriving Repr, DecidableEq

/-- The ledger visible to one session: its session row and its
append-only action list. -/
structure Db where
  session : SessionRow
  actions : List ActionRow
deriving Repr, DecidableEq

/-- `create_session` (the row inserted with status `'running'`). -/
def create_session : Db := ⟨freshSessionRow, []⟩

/-- `log_action`: append one action row. -/
def log_action (db : Db) (row : ActionRow) : Db :=
  { db with actions := db.actions ++ [row] }

/-- `update_session_counters`: overwrite the aggregate counters. -/
def update_session_counters (db : Db) (totalIterations totalToolCalls
    totalSandboxCalls totalRerenders totalTokensInput totalTokensOutput : Nat)
    (totalCostUsd : Nat) (sandboxTotalTimeMs : Nat) : Db :=
  { db with session :=
      { db.session with
          total_iterations := totalIterations,
          total_tool_calls := totalToolCalls,
          total_sandbox_calls := totalSandboxCalls,
          total_rerenders := totalRerenders,
          total_tokens_input := totalTokensInput,
          total_tokens_output := totalTokensOutput,
          total_cost_usd := totalCostUsd,
          sandbox_total_time_ms := sandboxTotalTimeMs } }

/-- `complete_session`: set the terminal status, summary and error message
(both assigned, `NULL` when absent) and the completion timestamp. -/
def complete_session (db : Db) (status : String)
    (resultSummary errorMessage : Option String) : Db :=
  { db with session :=
      { db.session with
          status := status,
          result_summary := resultSummary,
          error_message := errorMessage,
          completed_at_set := true } }

/-! ### Cost table and tool groups — `src/app/agent/loop.py` -/

/-- `MODEL_COSTS` lookup with the `gpt-4o-mini` fallback.  Prices per
single token in units of 10⁻⁸ USD: `2.50`/1M = 250, `10.00`/1M = 1000,
`0.15`/1M = 15, `0.60`/1M = 60 — the scaling is exact. -/
def modelCosts (model : String) : Nat × Nat :=
  if model = "gpt-4o" then (250, 1000)
  else if model = "gpt-4o-mini" then (15, 60)
  else if model = "gpt-4o-2024-11-20" then (250, 1000)
  else (15, 60)

/-- `calculate_cost` (result in 10⁻⁸ USD, exactly
`10⁸ × (input·price_in + output·price_out)/10⁶`). -/
def calculate_cost (model : String) (inputTokens outputTokens : Nat) : Nat :=
  let costs := modelCosts model
  inputTokens * costs.1 + outputTokens * costs.2

/-- `PAYLOAD_TOOLS`. -/
def PAYLOAD_TOOLS : List String :=
  ["list_tracks", "get_track_items", "get_job_status",
   "modify_payload", "validate_payload", "re_render"]

/-- `REPLAY_TOOLS`. -/
def REPLAY_TOOLS : List String :=
  ["get_job_status",
   "list_pipeline_checkpoints", "get_step_payload", "replay_from_step"]

/-- `ALL_TOOLS`. -/
def ALL_TOOLS : List String :=
  PAYLOAD_TOOLS ++ REPLAY_TOOLS.filter (fun t => t ∉ PAYLOAD_TOOLS)

/-- The nine tool names registered by `_build_full_registry`. -/
def registeredTools : List String :=
  ["list_tracks", "get_track_items", "get_job_status",
   "modify_payload", "validate_payload", "re_render",
   "list_pipeline_checkpoints", "get_step_payload", "replay_from_step"]

/-- `CRITICAL_TOOLS`: the state-mutating tools tracked by the
anti-hallucination trail. -/
def CRITICAL_TOOLS : List String := ["replay_from_step", "re_render", "modify_payload"]

/-- `MAX_CONSECUTIVE_FAILURES`. -/
def MAX_CONSECUTIVE_FAILURES : Nat := 3

/-! ### The agent loop — `SandboxDirector.execute` -/

/-- The per-instance mutable tool state: the two closure counters created
when `SandboxDirector.__init__` builds the full registry. -/
structure ToolSt where
  rerenderCount : Nat
  replayCount : Nat
deriving Repr, DecidableEq

/-- Environment-determined behaviour of one tool invocation: a stateless
HTTP tool is an oracle returning a dict or raising; the two counted tools
carry their backend's behaviour.  `raises` also covers an argument-binding
`TypeError`, which the registry turns into an error dict. -/
inductive HandlerBehavior where
  | raises (ty msg : String)
  | returns (r : Obj)
  | render (b : RenderBackend)
  | replay (b : ReplayBackend)

/-- One requested tool call of an assistant turn (arguments are passed
through to the handler and the ledger unchanged; they are elided). -/
structure ToolCallReq where
  name : String
  behavior : HandlerBehavior
  durationMs : Nat

/-- One model reply: either the API call raised, or it returned usage plus
either tool calls (non-empty list — `CASO 1`) or free text (`CASO 2`). -/
inductive ModelStep where
  | fail (msg : String)
  | reply (usage : Option Usage) (toolCalls : List ToolCallReq) (content : Option String)

/-- `registry.execute` as driven by the loop: dispatch by name over the
full registry built in `_build_full_registry`.  The counted tools thread
the instance counters; a behaviour that does not fit the named tool
encodes a call whose argument binding raised (`TypeError`), which the
registry converts to an error dict without running the handler body. -/
def registryExecute (maxRerenders maxReplays : Nat) (st : ToolSt)
    (req : ToolCallReq) : ToolSt × Obj :=
  if req.name ∈ registeredTools then
    match req.name, req.behavior with
    | "re_render", .render b =>
        let out := rerenderHandler maxRerenders st.rerenderCount b
        ({ st with rerenderCount := out.1 },
         match out.2.1 with
         | .returns res => res
         | .raises ty msg => [("error", .str (ty ++ ": " ++ msg))])
    | "replay_from_step", .replay b =>
        let out := replayHandler maxReplays st.replayCount b
        ({ st with replayCount := out.1 },
         match out.2.1 with
         | .returns res => res
         | .raises ty msg => [("error", .str (ty ++ ": " ++ msg))])
    | "re_render", _ =>
        (st, [("error", .str "TypeError: invalid arguments")])
    | "replay_from_step", _ =>
        (st, [("error", .str "TypeError: invalid arguments")])
    | _, .raises ty msg => (st, [("error", .str (ty ++ ": " ++ msg))])
    | _, .returns r => (st, r)
    | _, _ => (st, [("error", .str "TypeError: invalid arguments")])
  else
    (st, [("error", .str ("Tool \x27" ++ req.name ++ "\x27 não encontrada"))])

/-- One entry of `critical_tool_results`: `(tool_name, is_success, error_msg)`. -/
structure CritEntry where
  tool : String
  success : Bool
  errVal : Json
deriving Repr

/-- Events yielded by `SandboxDirector.execute`.  Terminal error events
keep their machine-readable fields; their human-readable `result` strings
and the 6-decimal display rounding of costs are presentation only and are
elided (the durable ledger keeps the corresponding messages). -/
inductive Event where
  | sessionCreated
  | toolCall (iteration : Nat) (tool : String) (success : Bool)
      (durationMs : Nat) (costSoFar : Nat)
  | errorEv (status : String) (totalIterations : Option Nat) (totalCost : Option Nat)
  | complete (status : String) (result : String) (totalIterations totalToolCalls : Nat)
      (totalCost : Nat) (route : Option String) (hadCriticalFailures : Bool)
deriving Repr, DecidableEq

/-- The loop's running state: ledger, emitted events, instance tool
counters, and the local counters of `execute`. -/
structure LoopSt where
  db : Db
  events : List Event
  toolSt : ToolSt
  modelCalls : Nat
  totalToolCalls : Nat
  totalRerenders : Nat
  totalTokensInput : Nat
  totalTokensOutput : Nat
  totalCost : Nat
  consecutiveFailures : Nat
  criticalResults : List CritEntry

/-- Loop configuration snapshot (`DirectorConfig` fields the loop reads). -/
structure DirectorConfig where
  directorModel : String
  directorMaxIterations : Nat
  directorMaxRerenders : Nat
  directorBudgetLimitUsd : Nat

/-- Fallback final text: `assistant_message.content or "Concluído sem mensagem."`. -/
def defaultFinalText : String := "Concluído sem mensagem."

/-- Python `"; ".join`. -/
def joinSemicolon : List String → String
  | [] => ""
  | [x] => x
  | x :: xs => x ++ "; " ++ joinSemicolon xs

/-- The templated honest-failure message substituted by the
anti-hallucination step: one `name: err` item per critical result whose
recorded error is truthy. -/
def antiHallucinationText (crit : List CritEntry) : String :=
  let failedDetails :=
    joinSemicolon ((crit.filter (fun c => pyTruthy c.errVal)).map
      (fun c => c.tool ++ ": " ++ pyStr c.errVal))
  "Não foi possível realizar a alteração solicitada. As operações falharam: " ++
    failedDetails ++
    ". Isso pode acontecer quando o tipo de modificação não é suportado " ++
    "neste contexto ou quando checkpoints necessários não estão disponíveis."

/-- `critical_tool_results and not any(success)`: every attempted critical
tool failed. -/
def allCriticalFailed (crit : List CritEntry) : Bool :=
  !crit.isEmpty && !(crit.any (fun c => c.success))

/-- The final-answer branch's text/status reconciliation (`CASO 2`):
empty or missing content falls back to `defaultFinalText`; if critical
tools were attempted and none succeeded the text is replaced and the
status degraded to `completed_with_errors`. -/
def reconcileFinal (content : Option String) (crit : List CritEntry) :
    String × String :=
  let resultText :=
    match content with
    | some s => if s = "" then defaultFinalText else s
    | none => defaultFinalText
  let text := if allCriticalFailed crit then antiHallucinationText crit else resultText
  let status := if allCriticalFailed crit then "completed_with_errors" else "completed"
  (text, status)

/-- Tokens of an optional usage (`usage.prompt_tokens if usage else 0`). -/
def usageTokens : Option Usage → Nat × Nat
  | some u => (u.promptTokens, u.completionTokens)
  | none => (0, 0)

/-- The circuit-breaker summary recorded in the ledger (`error_summary`
prefixed by `Circuit breaker: `). -/
def circuitBreakerMessage (failures : Nat) (toolName : String) (result : Obj) : String :=
  "Circuit breaker: Múltiplas falhas consecutivas (" ++ toString failures ++
    "). Última falha: " ++ toolName ++ " → " ++
    pyStr ((jget result "error").getD (.str "erro desconhecido"))

/-- The budget-exceeded ledger message.  The Python source formats the two
amounts with float formatting; the exact rendering of the rationals is
presentation only. -/
def budgetErrorMessage (totalCost budgetLimit : Nat) : String :=
  "Budget limit: $" ++ toString totalCost ++ " > $" ++ toString budgetLimit

/-- The max-iterations ledger message. -/
def maxIterationsMessage (maxIterations : Nat) : String :=
  "Max iterations reached (" ++ toString maxIterations ++ ")"

/-- The sequential tool-call sub-loop of `CASO 1`.  Executes the requested
calls in order; after each failure the consecutive-failure counter is
checked against `MAX_CONSECUTIVE_FAILURES` and, once reached, the session
is completed (ledger status `error`), the `circuit_breaker` error event is
emitted and the remaining calls are abandoned (`return`).  The returned
flag is `true` when the breaker fired. -/
def toolCallStep (cfg : DirectorConfig) (iteration : Nat) (usage : Option Usage)
    (st : LoopSt) (req : ToolCallReq) : LoopSt :=
  let exec := registryExecute cfg.directorMaxRerenders cfg.directorMaxRerenders
    st.toolSt req
  let result := exec.2
  let isSuccess := !(hasError result)
  let tk := usageTokens usage
  let callCost := calculate_cost cfg.directorModel tk.1 tk.2
  { st with
      toolSt := exec.1,
      totalToolCalls := st.totalToolCalls + 1,
      totalRerenders :=
        if (req.name = "re_render" ∨ req.name = "replay_from_step") ∧ isSuccess
        then st.totalRerenders + 1 else st.totalRerenders,
      db := log_action st.db
        ⟨iteration, "tool_call", some req.name, some isSuccess, none,
         tk.1, tk.2, callCost⟩,
      events := st.events ++
        [.toolCall iteration req.name isSuccess req.durationMs st.totalCost],
      criticalResults :=
        if req.name ∈ CRITICAL_TOOLS then
          st.criticalResults ++
            [⟨req.name, isSuccess,
              if isSuccess then .str "" else (jget result "error").getD (.str "")⟩]
        else st.criticalResults }

def processCalls (cfg : DirectorConfig) (iteration : Nat) (usage : Option Usage) :
    LoopSt → List ToolCallReq → LoopSt × Bool
  | st, [] => (st, false)
  | st, req :: rest =>
      let result := (registryExecute cfg.directorMaxRerenders cfg.directorMaxRerenders
        st.toolSt req).2
      let isSuccess := !(hasError result)
      let st1 := toolCallStep cfg iteration usage st req
      if isSuccess then
        processCalls cfg iteration usage { st1 with consecutiveFailures := 0 } rest
      else
        let cf := st.consecutiveFailures + 1
        if MAX_CONSECUTIVE_FAILURES ≤ cf then
          ({ st1 with
              consecutiveFailures := cf,
              db := complete_session st1.db "error" none
                (some (circuitBreakerMessage cf req.name result)),
              events := st1.events ++ [.errorEv "circuit_breaker" (some iteration)
                (some st.totalCost)] },
           true)
        else
          processCalls cfg iteration usage { st1 with consecutiveFailures := cf } rest

/-- The iteration loop of `SandboxDirector.execute`: `fuel` counts the
iterations left in `range(1, max_iterations + 1)`, `iteration` is the
1-based index of the current one.  Exhausted fuel is the fall-through
after the `for` loop (the max-iterations epilogue). -/
def runIterations (cfg : DirectorConfig) (resp : Nat → ModelStep)
    (route : Option String) : Nat → Nat → LoopSt → LoopSt
  | 0, _, st =>
      { st with
          db := complete_session
            (update_session_counters st.db cfg.directorMaxIterations
              st.totalToolCalls 0 st.totalRerenders st.totalTokensInput
              st.totalTokensOutput st.totalCost 0)
            "error" none (some (maxIterationsMessage cfg.directorMaxIterations)),
          events := st.events ++
            [.errorEv "max_iterations" (some cfg.directorMaxIterations) (some st.totalCost)] }
  | fuel + 1, iteration, st =>
      if cfg.directorBudgetLimitUsd < st.totalCost then
        { st with
            db := complete_session st.db "budget_exceeded" none
              (some (budgetErrorMessage st.totalCost cfg.directorBudgetLimitUsd)),
            events := st.events ++
              [.errorEv "budget_exceeded" (some iteration) (some st.totalCost)] }
      else
        match resp iteration with
        | .fail msg =>
            { st with
                modelCalls := st.modelCalls + 1,
                db := complete_session st.db "error" none (some msg),
                events := st.events ++ [.errorEv "error" none none] }
        | .reply usage toolCalls content =>
            let tk := usageTokens usage
            let st1 : LoopSt :=
              { st with
                  modelCalls := st.modelCalls + 1,
                  totalTokensInput := st.totalTokensInput + tk.1,
                  totalTokensOutput := st.totalTokensOutput + tk.2,
                  -- `if usage:` guard elided: with no usage the tokens are
                  -- zero and `calculate_cost model 0 0 = 0` exactly
                  totalCost := st.totalCost +
                    calculate_cost cfg.directorModel tk.1 tk.2 }
            if toolCalls.isEmpty then
              let rec' := reconcileFinal content st1.criticalResults
              let finalStatus := rec'.2
              let resultText := rec'.1
              let db1 := log_action st1.db
                ⟨iteration, "llm_response", none, none, some resultText,
                 tk.1, tk.2, calculate_cost cfg.directorModel tk.1 tk.2⟩
              let db2 := update_session_counters db1 iteration st1.totalToolCalls 0
                st1.totalRerenders st1.totalTokensInput st1.totalTokensOutput
                st1.totalCost 0
              { st1 with
                  db := complete_session db2 finalStatus (some resultText) none,
                  events := st1.events ++
                    [.complete finalStatus resultText iteration st1.totalToolCalls
                      st1.totalCost route (allCriticalFailed st1.criticalResults)] }
            else
              let out := processCalls cfg iteration usage st1 toolCalls
              if out.2 then out.1
              else runIterations cfg resp route fuel (iteration + 1) out.1

/-- `SandboxDirector.execute`: create the session, yield `session_created`
and run the loop.  The instance tool counters `toolSt` come from the
registry closures built in `__init__`; `execute` threads them without
resetting them. -/
def SandboxDirector.execute (cfg : DirectorConfig) (resp : Nat → ModelStep)
    (route : Option String) (toolSt : ToolSt) : LoopSt :=
  runIterations cfg resp route cfg.directorMaxIterations 1
    { db := create_session,
      events := [.sessionCreated],
      toolSt := toolSt,
      modelCalls := 0,
      totalToolCalls := 0,
      totalRerenders := 0,
      totalTokensInput := 0,
      totalTokensOutput := 0,
      totalCost := 0,
      consecutiveFailures := 0,
      criticalResults := [] }

/-! ### Trace observations -/

/-- Whether an event is a `tool_call` event (one executed tool invocation). -/
def Event.isToolCall : Event → Bool
  | .toolCall _ _ _ _ _ => true
  | _ => false

/-- Status field of a terminal event, when it has one. -/
def eventStatus : Event → Option String
  | .errorEv s _ _ => some s
  | .complete s _ _ _ _ _ _ => some s
  | _ => none

/-- Terminal status of a trace: the status of its last event. -/
def terminalStatus (tr : List Event) : Option String :=
  tr.getLast?.bind eventStatus

/-- The consecutive-failure counter as reconstructed from a trace: reset
by a successful tool call, incremented by a failed one, untouched by
anything else (mirrors `consecutive_failures` in the source). -/
def consecAfter (n : Nat) : List Event → Nat
  | [] => n
  | .toolCall _ _ success _ _ :: rest =>
      consecAfter (if success then 0 else n + 1) rest
  | _ :: rest => consecAfter n rest

/-- Executable substring test: `needle` occurs contiguously in `hay`. -/
def strContains (hay needle : String) : Bool :=
  hay.data.tails.any (fun t => needle.data.isPrefixOf t)

/-- Validity of a trace segment with respect to the circuit breaker,
starting from counter value `n`: every tool event happens with the counter
below the threshold; a failure that reaches the threshold is followed by
exactly the `circuit_breaker` terminal event and nothing else (`out` is
`none` in that case, otherwise `some` of the final counter value). -/
def ChainOK : Nat → List Event → Option Nat → Prop
  | n, [], out => out = some n
  | n, .toolCall _ _ success _ _ :: rest, out =>
      n < MAX_CONSECUTIVE_FAILURES ∧
      (if success then ChainOK 0 rest out
       else if MAX_CONSECUTIVE_FAILURES ≤ n + 1 then
         out = none ∧ ∃ it c, rest = [.errorEv "circuit_breaker" (some it) (some c)]
       else ChainOK (n + 1) rest out)
  | n, _ :: rest, out => ChainOK n rest out

/-- Cost added by one model reply (zero when the call failed or reported
no usage), as accounted by the loop. -/
def turnCost (cfg : DirectorConfig) (m : ModelStep) : Nat :=
  match m with
  | .reply (some u) _ _ =>
      calculate_cost cfg.directorModel u.promptTokens u.completionTokens
  | _ => 0

/-- Accumulated cost after the first `k` model replies of a script. -/
def runningCost (cfg : DirectorConfig) (resp : Nat → ModelStep) : Nat → Nat
  | 0 => 0
  | k + 1 => runningCost cfg resp k + turnCost cfg (resp (k + 1))

/-- The session row's aggregate counters and summary still hold the values
`create_session` left behind. -/
def countersUntouched (s : SessionRow) : Prop :=
  s.result_summary = none ∧ s.total_iterations = 0 ∧ s.total_tool_calls = 0 ∧
  s.total_rerenders = 0 ∧ s.total_tokens_input = 0 ∧ s.total_tokens_output = 0 ∧
  s.total_cost_usd = 0

/-- Correspondence between a finished run's terminal event and its session
row: on the budget, model-error and circuit-breaker paths the aggregate
counters stay untouched and only status, error message and completion
timestamp are written; on the max-iterations and final-answer paths the
counters are flushed into the row. -/
def LedgerOK (cfg : DirectorConfig) (fin : LoopSt) : Prop :=
  (terminalStatus fin.events = some "budget_exceeded" →
    countersUntouched fin.db.session ∧ fin.db.session.status = "budget_exceeded" ∧
    fin.db.session.error_message.isSome = true ∧
    fin.db.session.completed_at_set = true) ∧
  (terminalStatus fin.events = some "error" →
    countersUntouched fin.db.session ∧ fin.db.session.status = "error" ∧
    fin.db.session.error_message.isSome = true ∧
    fin.db.session.completed_at_set = true) ∧
  (terminalStatus fin.events = some "circuit_breaker" →
    countersUntouched fin.db.session ∧ fin.db.session.status = "error" ∧
    fin.db.session.error_message.isSome = true ∧
    fin.db.session.completed_at_set = true) ∧
  (terminalStatus fin.events = some "max_iterations" →
    fin.db.session.total_iterations = cfg.directorMaxIterations ∧
    fin.db.session.total_cost_usd = fin.totalCost ∧
    fin.db.session.status = "error") ∧
  (∀ s r it tc cost rt hcf,
    fin.events.getLast? = some (.complete s r it tc cost rt hcf) →
    fin.db.session.status = s ∧ fin.db.session.result_summary = some r ∧
    fin.db.session.total_iterations = it ∧ fin.db.session.total_tool_calls = tc ∧
    fin.db.session.total_cost_usd = cost)

/-! ### Concrete scripts used by individual claims -/

/-- Configuration with a zero budget ceiling (soft-ceiling scenario, C3). -/
def softCfg : DirectorConfig := ⟨"gpt-4o-mini", 5, 2, 0⟩

/-- Script for the soft-ceiling scenario: the first reply costs money and
still requests a tool call, which executes; the second iteration's budget
gate then fires. -/
def softResp : Nat → ModelStep
  | 1 => .reply (some ⟨1000, 1000⟩)
      [⟨"get_job_status", .returns [("status", .str "done")], 3⟩] none
  | _ => .reply none [] (some "never reached")

/-- Configuration for the max-iterations counterexample (C4): one iteration. -/
def cx4Cfg : DirectorConfig := ⟨"gpt-4o-mini", 1, 2, 1⟩

/-- Script for the max-iterations counterexample: a successful tool call on
every iteration, never a final answer. -/
def cx4Resp : Nat → ModelStep
  | _ => .reply none [⟨"get_job_status", .returns [("status", .str "done")], 3⟩] none

/-- Configuration used by the circuit-breaker witness run (C2). -/
def w2Cfg : DirectorConfig := ⟨"gpt-4o-mini", 4, 2, 1⟩

/-- Script for the circuit-breaker witness run: one turn requesting four
tool calls of which the first three fail. -/
def w2Resp : Nat → ModelStep
  | 1 => .reply none
      [⟨"modify_payload", .returns [("error", .str "boom1")], 1⟩,
       ⟨"modify_payload", .returns [("error", .str "boom2")], 1⟩,
       ⟨"modify_payload", .returns [("error", .str "boom3")], 1⟩,
       ⟨"get_job_status", .returns [("status", .str "done")], 1⟩] none
  | _ => .fail "unreached"

/-- Configuration for the shared-quota scenario (C9): two re-renders allowed. -/
def c9Cfg : DirectorConfig := ⟨"gpt-4o-mini", 4, 2, 1⟩

/-- First session of the shared-quota scenario: two successful re-renders,
then a final answer. -/
def c9Resp1 : Nat → ModelStep
  | 1 => .reply none
      [⟨"re_render", .render .ok, 1⟩, ⟨"re_render", .render .ok, 1⟩] none
  | _ => .reply none [] (some "feito")

/-- Second session of the shared-quota scenario: one more re-render attempt,
then a final answer. -/
def c9Resp2 : Nat → ModelStep
  | 1 => .reply none [⟨"re_render", .render .ok, 1⟩] none
  | _ => .reply none [] (some "feito de novo")

/-! ## Helper lemmas -/

theorem dictGet_dictInsert_self {α : Type} (d : List (String × α)) (k : String) (v : α) :
    dictGet (dictInsert d k v) k = some v := by
  induction d with
  | nil => simp [dictInsert, dictGet]
  | cons hd tl ih =>
      rcases hd with ⟨k', v'⟩
      by_cases hk : (k' == k) = true
      · simp [dictInsert, hk, dictGet]
      · simp [dictInsert, hk, dictGet, ih]

theorem dictInsert_length_of_isSome {α : Type} (d : List (String × α)) (k : String)
    (v : α) (h : (dictGet d k).isSome = true) :
    (dictInsert d k v).length = d.length := by
  induction d with
  | nil => simp [dictGet] at h
  | cons hd tl ih =>
      rcases hd with ⟨k', v'⟩
      by_cases hk : (k' == k) = true
      · simp [dictInsert, hk]
      · simp only [dictGet, hk, if_false, Bool.false_eq_true, if_neg,
          not_false_eq_true] at h
        simp [dictInsert, hk, ih h]

theorem rerenderHandler_count (maxR c : Nat) (b : RenderBackend) :
    (rerenderHandler maxR c b).1 = c + 1 := by
  unfold rerenderHandler
  by_cases h : maxR < c + 1
  · simp [h]
  · cases b <;> simp [h]

theorem replayHandler_count (maxRp c : Nat) (b : ReplayBackend) :
    (replayHandler maxRp c b).1 = c + 1 := by
  unfold replayHandler
  by_cases h : maxRp < c + 1
  · simp [h]
  · cases b <;> simp [h]

theorem registryExecute_mono (maxR maxRp : Nat) (st : ToolSt) (req : ToolCallReq) :
    st.rerenderCount ≤ (registryExecute maxR maxRp st req).1.rerenderCount ∧
    st.replayCount ≤ (registryExecute maxR maxRp st req).1.replayCount := by
  unfold registryExecute
  split
  · split
    · rename_i b _
      simp [rerenderHandler_count]
    · rename_i b _
      simp [replayHandler_count]
    all_goals simp
  · simp

theorem processCalls_toolSt_mono (cfg : DirectorConfig) (iteration : Nat)
    (usage : Option Usage) (calls : List ToolCallReq) (st : LoopSt) :
    st.toolSt.rerenderCount ≤
      (processCalls cfg iteration usage st calls).1.toolSt.rerenderCount ∧
    st.toolSt.replayCount ≤
      (processCalls cfg iteration usage st calls).1.toolSt.replayCount := by
  induction calls generalizing st with
  | nil => exact ⟨le_refl _, le_refl _⟩
  | cons req rest ih =>
      have hm := registryExecute_mono cfg.directorMaxRerenders cfg.directorMaxRerenders
        st.toolSt req
      rw [processCalls]
      split
      · constructor
        · refine le_trans ?_ ((ih _).1)
          exact hm.1
        · refine le_trans ?_ ((ih _).2)
          exact hm.2
      · by_cases hcf : MAX_CONSECUTIVE_FAILURES ≤ st.consecutiveFailures + 1
        · simp only [hcf, if_true]
          exact ⟨hm.1, hm.2⟩
        · simp only [hcf, if_false]
          constructor
          · refine le_trans ?_ ((ih _).1)
            exact hm.1
          · refine le_trans ?_ ((ih _).2)
            exact hm.2

theorem runIterations_toolSt_mono (cfg : DirectorConfig) (resp : Nat → ModelStep)
    (route : Option String) (fuel iteration : Nat) (st : LoopSt) :
    st.toolSt.rerenderCount ≤
      (runIterations cfg resp route fuel iteration st).toolSt.rerenderCount ∧
    st.toolSt.replayCount ≤
      (runIterations cfg resp route fuel iteration st).toolSt.replayCount := by
  induction fuel generalizing iteration st with
  | zero => exact ⟨le_refl _, le_refl _⟩
  | succ fuel ih =>
      rw [runIterations]
      split
      · exact ⟨le_refl _, le_refl _⟩
      · split
        next msg => exact ⟨le_refl _, le_refl _⟩
        next usage toolCalls content heq =>
          have hpc := fun s => processCalls_toolSt_mono cfg iteration usage toolCalls s
          split
          next hEmpty => exact ⟨le_refl _, le_refl _⟩
          next hEmpty =>
            dsimp only
            split
            next hstop =>
              constructor
              · refine le_trans ?_ ((hpc _).1)
                exact le_refl _
              · refine le_trans ?_ ((hpc _).2)
                exact le_refl _
            next hstop =>
              constructor
              · refine le_trans ?_ ((ih _ _).1)
                refine le_trans ?_ ((hpc _).1)
                exact le_refl _
              · refine le_trans ?_ ((ih _ _).2)
                refine le_trans ?_ ((hpc _).2)
                exact le_refl _

theorem strContains_intro (hay needle : String)
    (h : needle.data <:+: hay.data) : strContains hay needle = true := by
  rcases h with ⟨p, q, hpq⟩
  unfold strContains
  rw [List.any_eq_true]
  refine ⟨needle.data ++ q, ?_, ?_⟩
  · rw [List.mem_tails]
    exact ⟨p, by rw [← List.append_assoc, hpq]⟩
  · rw [List.isPrefixOf_iff_prefix]
    exact ⟨q, rfl⟩

theorem infix_of_mem_join (x : String) (l : List String) (hx : x ∈ l) :
    x.data <:+: (joinSemicolon l).data := by
  induction l with
  | nil => cases hx
  | cons a tl ih =>
      cases tl with
      | nil =>
          rcases List.mem_singleton.mp hx with rfl
          exact List.infix_refl _
      | cons b t =>
          rcases List.mem_cons.mp hx with rfl | hmem
          · show x.data <:+: (x ++ "; " ++ joinSemicolon (b :: t)).data
            rw [String.data_append, String.data_append]
            exact ((List.prefix_append _ _).trans (List.prefix_append _ _)).isInfix
          · refine (ih hmem).trans ?_
            show (joinSemicolon (b :: t)).data <:+: (a ++ "; " ++ joinSemicolon (b :: t)).data
            rw [String.data_append]
            exact (List.suffix_append _ _).isInfix

theorem antiHallucination_lists (crit : List CritEntry) (c : CritEntry)
    (hc : c ∈ crit) (ht : pyTruthy c.errVal = true) :
    strContains (antiHallucinationText crit) (c.tool ++ ": " ++ pyStr c.errVal) = true := by
  apply strContains_intro
  unfold antiHallucinationText
  have hmem : (c.tool ++ ": " ++ pyStr c.errVal) ∈
      (crit.filter (fun c => pyTruthy c.errVal)).map
        (fun c => c.tool ++ ": " ++ pyStr c.errVal) :=
    List.mem_map_of_mem _ (List.mem_filter.mpr ⟨hc, ht⟩)
  refine (infix_of_mem_join _ _ hmem).trans ?_
  rw [String.data_append, String.data_append, String.data_append]
  exact ((List.suffix_append _ _).isInfix.trans
    (List.prefix_append _ _).isInfix).trans (List.prefix_append _ _).isInfix

theorem allCriticalFailed_eq_true (crit : List CritEntry) :
    allCriticalFailed crit = true ↔ crit ≠ [] ∧ ∀ c ∈ crit, c.success = false := by
  simp [allCriticalFailed, List.any_eq_true, List.isEmpty_iff]

theorem processCalls_allSuccess (cfg : DirectorConfig) (iteration : Nat)
    (usage : Option Usage) (calls : List ToolCallReq) (st : LoopSt)
    (h : ∀ req ∈ calls, ∀ tst : ToolSt,
      hasError (registryExecute cfg.directorMaxRerenders cfg.directorMaxRerenders
        tst req).2 = false) :
    (processCalls cfg iteration usage st calls).2 = false ∧
    (processCalls cfg iteration usage st calls).1.totalCost = st.totalCost := by
  induction calls generalizing st with
  | nil => exact ⟨rfl, rfl⟩
  | cons req rest ih =>
      have hreq := h req (List.mem_cons_self _ _) st.toolSt
      rw [processCalls]
      simp only [hreq, Bool.not_false, if_pos]
      exact ih _ (fun req' hm tst => h req' (List.mem_cons_of_mem _ hm) tst)

theorem calculate_cost_usageTokens (cfg : DirectorConfig) (u : Option Usage)
    (calls : List ToolCallReq) (c : Option String) :
    calculate_cost cfg.directorModel (usageTokens u).1 (usageTokens u).2 =
      turnCost cfg (.reply u calls c) := by
  cases u <;> simp [turnCost, calculate_cost, usageTokens]

theorem runIterations_all_tool_turns (cfg : DirectorConfig) (resp : Nat → ModelStep)
    (route : Option String)
    (H : ∀ i, 1 ≤ i → i ≤ cfg.directorMaxIterations →
      ∃ u calls c, resp i = .reply u calls c ∧ calls ≠ [] ∧
        ∀ req ∈ calls, ∀ tst : ToolSt,
          hasError (registryExecute cfg.directorMaxRerenders cfg.directorMaxRerenders
            tst req).2 = false)
    (Hb : ∀ k, k < cfg.directorMaxIterations →
      runningCost cfg resp k ≤ cfg.directorBudgetLimitUsd) :
    ∀ fuel iteration st, fuel + iteration = cfg.directorMaxIterations + 1 →
      1 ≤ iteration → st.totalCost = runningCost cfg resp (iteration - 1) →
      (∃ cost, (runIterations cfg resp route fuel iteration st).events.getLast? =
        some (.errorEv "max_iterations" (some cfg.directorMaxIterations) (some cost))) ∧
      (runIterations cfg resp route fuel iteration st).db.session.status = "error" ∧
      (runIterations cfg resp route fuel iteration st).db.session.error_message =
        some (maxIterationsMessage cfg.directorMaxIterations) ∧
      (runIterations cfg resp route fuel iteration st).db.session.total_iterations =
        cfg.directorMaxIterations := by
  intro fuel
  induction fuel with
  | zero =>
      intro iteration st hfi h1 hcost
      rw [runIterations]
      refine ⟨⟨st.totalCost, ?_⟩, rfl, rfl, rfl⟩
      simp [List.getLast?_concat]
  | succ fuel ih =>
      intro iteration st hfi h1 hcost
      have hle : iteration ≤ cfg.directorMaxIterations := by omega
      have hsub : iteration - 1 < cfg.directorMaxIterations := by omega
      have hbudget : ¬ (cfg.directorBudgetLimitUsd < st.totalCost) := by
        rw [hcost]
        exact not_lt_of_le (Hb _ hsub)
      obtain ⟨u, calls, c, hresp, hne, hsucc⟩ := H iteration h1 hle
      rw [runIterations, if_neg hbudget, hresp]
      have hnonempty : calls.isEmpty = false := by
        cases calls with
        | nil => cases hne rfl
        | cons a l => rfl
      simp only [hnonempty, Bool.false_eq_true, if_false]
      have hpc := processCalls_allSuccess cfg iteration u calls
        { st with
            modelCalls := st.modelCalls + 1,
            totalTokensInput := st.totalTokensInput + (usageTokens u).1,
            totalTokensOutput := st.totalTokensOutput + (usageTokens u).2,
            totalCost := st.totalCost +
              calculate_cost cfg.directorModel (usageTokens u).1 (usageTokens u).2 }
        hsucc
      rw [hpc.1]
      simp only [Bool.false_eq_true, if_false]
      apply ih (iteration + 1) _ (by omega) (by omega)
      rw [hpc.2]
      have hit : iteration - 1 + 1 = iteration := Nat.succ_pred_eq_of_pos h1
      have hrun : runningCost cfg resp iteration =
          runningCost cfg resp (iteration - 1) + turnCost cfg (resp iteration) := by
        conv_lhs => rw [← hit]
        rw [runningCost, hit]
      simp only [Nat.add_sub_cancel, hrun, hcost, hresp]
      rw [calculate_cost_usageTokens cfg u calls c]

theorem terminalStatus_concat (es : List Event) (e : Event) :
    terminalStatus (es ++ [e]) = eventStatus e := by
  simp [terminalStatus, List.getLast?_concat]

theorem terminalStatus_of_getLast (es : List Event) (e : Event)
    (h : es.getLast? = some e) : terminalStatus es = eventStatus e := by
  unfold terminalStatus
  rw [h]
  rfl

theorem processCalls_session (cfg : DirectorConfig) (iteration : Nat)
    (usage : Option Usage) :
    ∀ (calls : List ToolCallReq) (st : LoopSt),
      ((processCalls cfg iteration usage st calls).2 = false →
        (processCalls cfg iteration usage st calls).1.db.session = st.db.session) ∧
      ((processCalls cfg iteration usage st calls).2 = true →
        (∃ m, (processCalls cfg iteration usage st calls).1.db.session =
          { st.db.session with
              status := "error", result_summary := none,
              error_message := some m, completed_at_set := true }) ∧
        ∃ cost, (processCalls cfg iteration usage st calls).1.events.getLast? =
          some (.errorEv "circuit_breaker" (some iteration) (some cost))) := by
  intro calls
  induction calls with
  | nil => exact fun st => ⟨fun _ => rfl, fun h => nomatch h⟩
  | cons req rest ih =>
      intro st
      rw [processCalls]
      split
      · constructor
        · intro h
          exact (ih _).1 h
        · intro h
          exact (ih _).2 h
      · by_cases hcf : MAX_CONSECUTIVE_FAILURES ≤ st.consecutiveFailures + 1
        · simp only [hcf, if_true]
          refine ⟨fun h => (nomatch h), fun _ => ?_⟩
          refine ⟨⟨_, rfl⟩, st.totalCost, ?_⟩
          exact List.getLast?_concat _
        · simp only [hcf, if_false]
          constructor
          · intro h
            exact (ih _).1 h
          · intro h
            exact (ih _).2 h

theorem countersUntouched_complete (s : SessionRow) (hc : countersUntouched s)
    (status : String) (em : Option String) :
    countersUntouched { s with
      status := status, result_summary := none,
      error_message := em, completed_at_set := true } :=
  ⟨rfl, hc.2.1, hc.2.2.1, hc.2.2.2.1, hc.2.2.2.2.1, hc.2.2.2.2.2.1,
   hc.2.2.2.2.2.2⟩

theorem reconcileFinal_status_mem (content : Option String) (crit : List CritEntry) :
    (reconcileFinal content crit).2 = "completed_with_errors" ∨
    (reconcileFinal content crit).2 = "completed" := by
  by_cases h : allCriticalFailed crit = true <;> simp [reconcileFinal, h]

theorem runIterations_ledger (cfg : DirectorConfig) (resp : Nat → ModelStep)
    (route : Option String) :
    ∀ fuel iteration st, countersUntouched st.db.session →
      LedgerOK cfg (runIterations cfg resp route fuel iteration st) := by
  intro fuel
  induction fuel with
  | zero =>
      intro iteration st hc
      rw [runIterations]
      refine ⟨?_, ?_, ?_, ?_, ?_⟩
      · intro h
        simp [terminalStatus, List.getLast?_concat, eventStatus] at h
      · intro h
        simp [terminalStatus, List.getLast?_concat, eventStatus] at h
      · intro h
        simp [terminalStatus, List.getLast?_concat, eventStatus] at h
      · intro h
        exact ⟨rfl, rfl, rfl⟩
      · intro s r it tc cost rt hcf h
        simp [List.getLast?_concat] at h
  | succ fuel ih =>
      intro iteration st hc
      rw [runIterations]
      split
      · refine ⟨?_, ?_, ?_, ?_, ?_⟩
        · intro h
          exact ⟨countersUntouched_complete _ hc _ _, rfl, rfl, rfl⟩
        · intro h
          simp [terminalStatus, List.getLast?_concat, eventStatus] at h
        · intro h
          simp [terminalStatus, List.getLast?_concat, eventStatus] at h
        · intro h
          simp [terminalStatus, List.getLast?_concat, eventStatus] at h
        · intro s r it tc cost rt hcf h
          simp [List.getLast?_concat] at h
      · split
        next msg =>
          refine ⟨?_, ?_, ?_, ?_, ?_⟩
          · intro h
            simp [terminalStatus, List.getLast?_concat, eventStatus] at h
          · intro h
            exact ⟨countersUntouched_complete _ hc _ _, rfl, rfl, rfl⟩
          · intro h
            simp [terminalStatus, List.getLast?_concat, eventStatus] at h
          · intro h
            simp [terminalStatus, List.getLast?_concat, eventStatus] at h
          · intro s r it tc cost rt hcf h
            simp [List.getLast?_concat] at h
        next usage toolCalls content heq =>
          split
          next hEmpty =>
            refine ⟨?_, ?_, ?_, ?_, ?_⟩
            · intro h
              simp only [terminalStatus_concat, eventStatus, Option.some_inj] at h
              rcases reconcileFinal_status_mem content st.criticalResults with hs | hs <;>
                rw [hs] at h <;> exact absurd h (by decide)
            · intro h
              simp only [terminalStatus_concat, eventStatus, Option.some_inj] at h
              rcases reconcileFinal_status_mem content st.criticalResults with hs | hs <;>
                rw [hs] at h <;> exact absurd h (by decide)
            · intro h
              simp only [terminalStatus_concat, eventStatus, Option.some_inj] at h
              rcases reconcileFinal_status_mem content st.criticalResults with hs | hs <;>
                rw [hs] at h <;> exact absurd h (by decide)
            · intro h
              simp only [terminalStatus_concat, eventStatus, Option.some_inj] at h
              rcases reconcileFinal_status_mem content st.criticalResults with hs | hs <;>
                rw [hs] at h <;> exact absurd h (by decide)
            · intro s r it tc cost rt hcf h
              simp only [List.getLast?_concat, Option.some_inj, Event.complete.injEq] at h
              obtain ⟨rfl, rfl, rfl, rfl, rfl, rfl, rfl⟩ := h
              exact ⟨rfl, rfl, rfl, rfl, rfl⟩
          next hEmpty =>
            dsimp only
            split
            next hstop =>
              obtain ⟨⟨m, hsess⟩, cost0, hlast⟩ :=
                (processCalls_session cfg iteration usage toolCalls _).2 hstop
              have hterm := terminalStatus_of_getLast _ _ hlast
              refine ⟨?_, ?_, ?_, ?_, ?_⟩
              · intro h
                rw [hterm] at h
                simp only [eventStatus, Option.some_inj] at h
                exact absurd h (by decide)
              · intro h
                rw [hterm] at h
                simp only [eventStatus, Option.some_inj] at h
                exact absurd h (by decide)
              · intro h
                rw [hsess]
                exact ⟨countersUntouched_complete _ hc _ _, rfl, rfl, rfl⟩
              · intro h
                rw [hterm] at h
                simp only [eventStatus, Option.some_inj] at h
                exact absurd h (by decide)
              · intro s r it tc cost rt hcf h
                rw [hlast] at h
                simp at h
            next hstop =>
              apply ih
              have hfalse := Bool.eq_false_iff.mpr hstop
              rw [(processCalls_session cfg iteration usage toolCalls _).1 hfalse]
              exact hc

theorem ChainOK_nil (n : Nat) (out : Option Nat) :
    ChainOK n [] out ↔ out = some n := Iff.rfl

theorem ChainOK_cons_tool (n : Nat) (it : Nat) (name : String) (success : Bool)
    (d c : Nat) (rest : List Event) (out : Option Nat) :
    ChainOK n (.toolCall it name success d c :: rest) out ↔
      (n < MAX_CONSECUTIVE_FAILURES ∧
       (if success then ChainOK 0 rest out
        else if MAX_CONSECUTIVE_FAILURES ≤ n + 1 then
          out = none ∧
            ∃ i cc, rest = [.errorEv "circuit_breaker" (some i) (some cc)]
        else ChainOK (n + 1) rest out)) := Iff.rfl

theorem ChainOK_cons_nontool (n : Nat) (e : Event) (he : e.isToolCall = false)
    (rest : List Event) (out : Option Nat) :
    ChainOK n (e :: rest) out ↔ ChainOK n rest out := by
  cases e with
  | toolCall _ _ _ _ _ => simp [Event.isToolCall] at he
  | sessionCreated => exact Iff.rfl
  | errorEv _ _ _ => exact Iff.rfl
  | complete _ _ _ _ _ _ _ => exact Iff.rfl

theorem consecAfter_cons_tool (n : Nat) (it : Nat) (name : String) (success : Bool)
    (d c : Nat) (rest : List Event) :
    consecAfter n (.toolCall it name success d c :: rest) =
      consecAfter (if success then 0 else n + 1) rest := rfl

theorem consecAfter_cons_nontool (n : Nat) (e : Event) (he : e.isToolCall = false)
    (rest : List Event) :
    consecAfter n (e :: rest) = consecAfter n rest := by
  cases e with
  | toolCall _ _ _ _ _ => simp [Event.isToolCall] at he
  | sessionCreated => rfl
  | errorEv _ _ _ => rfl
  | complete _ _ _ _ _ _ _ => rfl

theorem ChainOK_noToolPast (n : Nat) (tr : List Event) (out : Option Nat)
    (h : ChainOK n tr out) :
    ∀ pre e post, tr = pre ++ e :: post → e.isToolCall = true →
      consecAfter n pre < MAX_CONSECUTIVE_FAILURES := by
  intro pre
  induction pre generalizing n tr out with
  | nil =>
      intro e post htr htool
      subst htr
      cases e with
      | toolCall _ _ success _ _ => exact h.1
      | sessionCreated => simp [Event.isToolCall] at htool
      | errorEv _ _ _ => simp [Event.isToolCall] at htool
      | complete _ _ _ _ _ _ _ => simp [Event.isToolCall] at htool
  | cons x pre ih =>
      intro e post htr htool
      subst htr
      cases x with
      | toolCall it name success d c =>
          have h' : n < MAX_CONSECUTIVE_FAILURES ∧
              (if success = true then ChainOK 0 (pre ++ e :: post) out
               else if MAX_CONSECUTIVE_FAILURES ≤ n + 1 then
                 out = none ∧ ∃ i cc, pre ++ e :: post =
                   [.errorEv "circuit_breaker" (some i) (some cc)]
               else ChainOK (n + 1) (pre ++ e :: post) out) := h
          show consecAfter (if success = true then 0 else n + 1) pre <
            MAX_CONSECUTIVE_FAILURES
          cases success with
          | true =>
              simp only [if_true] at h' ⊢
              exact ih 0 _ out h'.2 e post rfl htool
          | false =>
              simp only [Bool.false_eq_true, if_false] at h' ⊢
              by_cases hcf : MAX_CONSECUTIVE_FAILURES ≤ n + 1
              · rw [if_pos hcf] at h'
                obtain ⟨-, i, cc, hrest⟩ := h'.2
                cases pre with
                | nil =>
                    simp only [List.nil_append, List.cons_eq_cons] at hrest
                    rw [hrest.1] at htool
                    simp [Event.isToolCall] at htool
                | cons y pre2 => simp at hrest
              · rw [if_neg hcf] at h'
                exact ih (n + 1) _ out h'.2 e post rfl htool
      | sessionCreated => exact ih n (pre ++ e :: post) out h e post rfl htool
      | errorEv a b c => exact ih n (pre ++ e :: post) out h e post rfl htool
      | complete a b c d e2 f g =>
          exact ih n (pre ++ e :: post) out h e post rfl htool

theorem ChainOK_breakImmediate (n : Nat) (tr : List Event) (out : Option Nat)
    (h : ChainOK n tr out) :
    ∀ pre e post, tr = pre ++ e :: post → e.isToolCall = true →
      MAX_CONSECUTIVE_FAILURES ≤ consecAfter n (pre ++ [e]) →
      ∃ it c, post = [.errorEv "circuit_breaker" (some it) (some c)] := by
  intro pre
  induction pre generalizing n tr out with
  | nil =>
      intro e post htr htool hge
      subst htr
      cases e with
      | toolCall it name success d c =>
          have h' : n < MAX_CONSECUTIVE_FAILURES ∧
              (if success = true then ChainOK 0 post out
               else if MAX_CONSECUTIVE_FAILURES ≤ n + 1 then
                 out = none ∧ ∃ i cc, post =
                   [.errorEv "circuit_breaker" (some i) (some cc)]
               else ChainOK (n + 1) post out) := h
          have hge' : MAX_CONSECUTIVE_FAILURES ≤
              (if success = true then 0 else n + 1) := hge
          cases success with
          | true =>
              simp only [if_true] at hge'
              exact absurd hge' (by decide)
          | false =>
              simp only [Bool.false_eq_true, if_false] at h' hge'
              rw [if_pos hge'] at h'
              exact h'.2.2
      | sessionCreated => simp [Event.isToolCall] at htool
      | errorEv _ _ _ => simp [Event.isToolCall] at htool
      | complete _ _ _ _ _ _ _ => simp [Event.isToolCall] at htool
  | cons x pre ih =>
      intro e post htr htool hge
      subst htr
      cases x with
      | toolCall it name success d c =>
          have h' : n < MAX_CONSECUTIVE_FAILURES ∧
              (if success = true then ChainOK 0 (pre ++ e :: post) out
               else if MAX_CONSECUTIVE_FAILURES ≤ n + 1 then
                 out = none ∧ ∃ i cc, pre ++ e :: post =
                   [.errorEv "circuit_breaker" (some i) (some cc)]
               else ChainOK (n + 1) (pre ++ e :: post) out) := h
          have hge' : MAX_CONSECUTIVE_FAILURES ≤
              consecAfter (if success = true then 0 else n + 1) (pre ++ [e]) := hge
          cases success with
          | true =>
              simp only [if_true] at h' hge'
              exact ih 0 _ out h'.2 e post rfl htool hge'
          | false =>
              simp only [Bool.false_eq_true, if_false] at h' hge'
              by_cases hcf : MAX_CONSECUTIVE_FAILURES ≤ n + 1
              · rw [if_pos hcf] at h'
                obtain ⟨-, i, cc, hrest⟩ := h'.2
                cases pre with
                | nil =>
                    simp only [List.nil_append, List.cons_eq_cons] at hrest
                    rw [hrest.1] at htool
                    simp [Event.isToolCall] at htool
                | cons y pre2 => simp at hrest
              · rw [if_neg hcf] at h'
                exact ih (n + 1) _ out h'.2 e post rfl htool hge'
      | sessionCreated =>
          exact ih n (pre ++ e :: post) out h e post rfl htool hge
      | errorEv a b c =>
          exact ih n (pre ++ e :: post) out h e post rfl htool hge
      | complete a b c d e2 f g =>
          exact ih n (pre ++ e :: post) out h e post rfl htool hge

theorem ChainOK_append (xs : List Event) :
    ∀ (n m : Nat) (ys : List Event) (out : Option Nat),
      ChainOK n xs (some m) → ChainOK m ys out → ChainOK n (xs ++ ys) out := by
  induction xs with
  | nil =>
      intro n m ys out h1 h2
      have h1' : (some m : Option Nat) = some n := h1
      obtain rfl : m = n := by injection h1'
      exact h2
  | cons x xs ih =>
      intro n m ys out h1 h2
      cases x with
      | toolCall it name success d c =>
          have h1' : n < MAX_CONSECUTIVE_FAILURES ∧
              (if success = true then ChainOK 0 xs (some m)
               else if MAX_CONSECUTIVE_FAILURES ≤ n + 1 then
                 (some m : Option Nat) = none ∧ ∃ i cc, xs =
                   [.errorEv "circuit_breaker" (some i) (some cc)]
               else ChainOK (n + 1) xs (some m)) := h1
          show n < MAX_CONSECUTIVE_FAILURES ∧
              (if success = true then ChainOK 0 (xs ++ ys) out
               else if MAX_CONSECUTIVE_FAILURES ≤ n + 1 then
                 out = none ∧ ∃ i cc, xs ++ ys =
                   [.errorEv "circuit_breaker" (some i) (some cc)]
               else ChainOK (n + 1) (xs ++ ys) out)
          refine ⟨h1'.1, ?_⟩
          cases success with
          | true =>
              simp only [if_true] at h1' ⊢
              exact ih 0 m ys out h1'.2 h2
          | false =>
              simp only [Bool.false_eq_true, if_false] at h1' ⊢
              by_cases hcf : MAX_CONSECUTIVE_FAILURES ≤ n + 1
              · rw [if_pos hcf] at h1'
                exact absurd h1'.2.1 (by simp)
              · rw [if_neg hcf] at h1'
                rw [if_neg hcf]
                exact ih (n + 1) m ys out h1'.2 h2
      | sessionCreated =>
          show ChainOK n (xs ++ ys) out
          exact ih n m ys out h1 h2
      | errorEv a b c =>
          show ChainOK n (xs ++ ys) out
          exact ih n m ys out h1 h2
      | complete a b c d e2 f g =>
          show ChainOK n (xs ++ ys) out
          exact ih n m ys out h1 h2

theorem processCalls_chain (cfg : DirectorConfig) (iteration : Nat)
    (usage : Option Usage) :
    ∀ (calls : List ToolCallReq) (st : LoopSt),
      st.consecutiveFailures < MAX_CONSECUTIVE_FAILURES →
      ∃ ext, (processCalls cfg iteration usage st calls).1.events = st.events ++ ext ∧
        ((processCalls cfg iteration usage st calls).2 = true →
          ChainOK st.consecutiveFailures ext none) ∧
        ((processCalls cfg iteration usage st calls).2 = false →
          ChainOK st.consecutiveFailures ext
            (some (processCalls cfg iteration usage st calls).1.consecutiveFailures) ∧
          (processCalls cfg iteration usage st calls).1.consecutiveFailures <
            MAX_CONSECUTIVE_FAILURES) := by
  intro calls
  induction calls with
  | nil =>
      intro st h
      refine ⟨[], by simp [processCalls], fun hh => (nomatch hh), fun _ => ⟨rfl, h⟩⟩
  | cons req rest ih =>
      intro st h
      rw [processCalls]
      by_cases hsucc : (!hasError (registryExecute cfg.directorMaxRerenders
          cfg.directorMaxRerenders st.toolSt req).2) = true
      · simp only [hsucc, if_true]
        obtain ⟨ext', hev', hs', hr'⟩ :=
          ih { toolCallStep cfg iteration usage st req with consecutiveFailures := 0 }
            (show (0:Nat) < MAX_CONSECUTIVE_FAILURES by decide)
        refine ⟨.toolCall iteration req.name true req.durationMs st.totalCost :: ext',
          ?_, ?_, ?_⟩
        · rw [hev']
          simp [toolCallStep, hsucc, List.append_assoc]
        · intro hh
          exact ⟨h, hs' hh⟩
        · intro hh
          exact ⟨⟨h, (hr' hh).1⟩, (hr' hh).2⟩
      · have hfalse := Bool.eq_false_iff.mpr hsucc
        simp only [hfalse, Bool.false_eq_true, if_false]
        by_cases hcf : MAX_CONSECUTIVE_FAILURES ≤ st.consecutiveFailures + 1
        · simp only [hcf, if_true]
          refine ⟨[.toolCall iteration req.name false req.durationMs st.totalCost,
            .errorEv "circuit_breaker" (some iteration) (some st.totalCost)],
            ?_, ?_, ?_⟩
          · simp [toolCallStep, hfalse, List.append_assoc]
          · intro hh
            refine ⟨h, ?_⟩
            simp only [Bool.false_eq_true, if_false, hcf, if_true]
            exact ⟨trivial, iteration, st.totalCost, rfl⟩
          · intro hh
            exact nomatch hh
        · simp only [hcf, if_false]
          have hlt : st.consecutiveFailures + 1 < MAX_CONSECUTIVE_FAILURES :=
            Nat.lt_of_not_le hcf
          obtain ⟨ext', hev', hs', hr'⟩ :=
            ih { toolCallStep cfg iteration usage st req with
                  consecutiveFailures := st.consecutiveFailures + 1 } hlt
          refine ⟨.toolCall iteration req.name false req.durationMs st.totalCost :: ext',
            ?_, ?_, ?_⟩
          · rw [hev']
            simp [toolCallStep, hfalse, List.append_assoc]
          · intro hh
            refine ⟨h, ?_⟩
            simp only [Bool.false_eq_true, if_false, hcf]
            exact hs' hh
          · intro hh
            refine ⟨⟨h, ?_⟩, (hr' hh).2⟩
            simp only [Bool.false_eq_true, if_false, hcf]
            exact (hr' hh).1

theorem runIterations_chain (cfg : DirectorConfig) (resp : Nat → ModelStep)
    (route : Option String) :
    ∀ fuel iteration st, st.consecutiveFailures < MAX_CONSECUTIVE_FAILURES →
      ∃ ext out,
        (runIterations cfg resp route fuel iteration st).events = st.events ++ ext ∧
        ChainOK st.consecutiveFailures ext out := by
  intro fuel
  induction fuel with
  | zero =>
      intro iteration st h
      rw [runIterations]
      exact ⟨[.errorEv "max_iterations" (some cfg.directorMaxIterations)
        (some st.totalCost)], some st.consecutiveFailures, rfl, rfl⟩
  | succ fuel ih =>
      intro iteration st h
      rw [runIterations]
      split
      · exact ⟨[.errorEv "budget_exceeded" (some iteration) (some st.totalCost)],
          some st.consecutiveFailures, rfl, rfl⟩
      · split
        next msg =>
            exact ⟨[.errorEv "error" none none], some st.consecutiveFailures, rfl, rfl⟩
        next usage toolCalls content heq =>
          split
          next hEmpty =>
              exact ⟨[.complete (reconcileFinal content st.criticalResults).2
                (reconcileFinal content st.criticalResults).1 iteration
                st.totalToolCalls
                (st.totalCost + calculate_cost cfg.directorModel
                  (usageTokens usage).1 (usageTokens usage).2)
                route (allCriticalFailed st.criticalResults)],
                some st.consecutiveFailures, rfl, rfl⟩
          next hEmpty =>
            dsimp only
            split
            next hstop =>
              obtain ⟨ext1, hev1, hs1, hr1⟩ :=
                processCalls_chain cfg iteration usage toolCalls
                  { st with
                      modelCalls := st.modelCalls + 1,
                      totalTokensInput := st.totalTokensInput + (usageTokens usage).1,
                      totalTokensOutput := st.totalTokensOutput + (usageTokens usage).2,
                      totalCost := st.totalCost + calculate_cost cfg.directorModel
                        (usageTokens usage).1 (usageTokens usage).2 }
                  h
              exact ⟨ext1, none, hev1, hs1 hstop⟩
            next hstop =>
              have hfalse := Bool.eq_false_iff.mpr hstop
              obtain ⟨ext1, hev1, hs1, hr1⟩ :=
                processCalls_chain cfg iteration usage toolCalls
                  { st with
                      modelCalls := st.modelCalls + 1,
                      totalTokensInput := st.totalTokensInput + (usageTokens usage).1,
                      totalTokensOutput := st.totalTokensOutput + (usageTokens usage).2,
                      totalCost := st.totalCost + calculate_cost cfg.directorModel
                        (usageTokens usage).1 (usageTokens usage).2 }
                  h
              have hcons := hr1 hfalse
              obtain ⟨ext2, out2, hev2, hch2⟩ := ih (iteration + 1) _ hcons.2
              refine ⟨ext1 ++ ext2, out2, ?_, ?_⟩
              · rw [hev2, hev1]
                simp [List.append_assoc]
              · exact ChainOK_append ext1 st.consecutiveFailures _ ext2 out2
                  hcons.1 hch2

/-! ## Claim theorems -/

/-- C9: the two counted tools consume quota on every invocation of their
handler body (the counter is incremented before the limit check, also on
failed attempts); once the counter has used up the configured maximum,
every further invocation returns the `limit_reached` error dict without
contacting the backend; `execute` never decreases (in particular never
resets) the instance counters, so two sessions served by the same
Specialist instance draw down one shared quota — in the concrete scenario,
after a first session spends both re-renders, the second session's very
first `re_render` comes back as a failure. -/
theorem C9_render_replay_quota :
    (∀ (maxR c : Nat) (b : RenderBackend), (rerenderHandler maxR c b).1 = c + 1) ∧
    (∀ (maxRp c : Nat) (b : ReplayBackend), (replayHandler maxRp c b).1 = c + 1) ∧
    (∀ (maxR c : Nat) (b : RenderBackend), maxR ≤ c →
      rerenderHandler maxR c b = (c + 1, .returns (rerenderLimitObj maxR), false)) ∧
    (∀ (maxRp c : Nat) (b : ReplayBackend), maxRp ≤ c →
      replayHandler maxRp c b = (c + 1, .returns (replayLimitObj maxRp), false)) ∧
    (∀ maxR : Nat, hasError (rerenderLimitObj maxR) = true ∧
      jget (rerenderLimitObj maxR) "limit_reached" = some (.bool true)) ∧
    (∀ maxRp : Nat, hasError (replayLimitObj maxRp) = true ∧
      jget (replayLimitObj maxRp) "limit_reached" = some (.bool true)) ∧
    (∀ (cfg : DirectorConfig) (resp : Nat → ModelStep) (route : Option String)
      (ts : ToolSt),
      ts.rerenderCount ≤ (SandboxDirector.execute cfg resp route ts).toolSt.rerenderCount ∧
      ts.replayCount ≤ (SandboxDirector.execute cfg resp route ts).toolSt.replayCount) ∧
    ((SandboxDirector.execute c9Cfg c9Resp1 none ⟨0, 0⟩).toolSt.rerenderCount = 2 ∧
      (SandboxDirector.execute c9Cfg c9Resp2 none
        (SandboxDirector.execute c9Cfg c9Resp1 none ⟨0, 0⟩).toolSt).toolSt.rerenderCount = 3 ∧
      (SandboxDirector.execute c9Cfg c9Resp2 none
        (SandboxDirector.execute c9Cfg c9Resp1 none ⟨0, 0⟩).toolSt).events[1]? =
        some (.toolCall 1 "re_render" false 1 0)) := by
  refine ⟨rerenderHandler_count, replayHandler_count, ?_, ?_, ?_, ?_, ?_, ?_, ?_, ?_⟩
  · intro maxR c b h
    have hlt : maxR < c + 1 := Nat.lt_succ_of_le h
    unfold rerenderHandler
    simp [hlt]
  · intro maxRp c b h
    have hlt : maxRp < c + 1 := Nat.lt_succ_of_le h
    unfold replayHandler
    simp [hlt]
  · intro maxR
    exact ⟨rfl, rfl⟩
  · intro maxRp
    exact ⟨rfl, rfl⟩
  · intro cfg resp route ts
    exact runIterations_toolSt_mono cfg resp route cfg.directorMaxIterations 1
      ⟨create_session, [.sessionCreated], ts, 0, 0, 0, 0, 0, 0, 0, []⟩
  · rfl
  · rfl
  · rfl

/-- Witness for C9 at concrete exhausted counters. -/
theorem C9_witness :
    rerenderHandler 2 2 .ok = (3, .returns (rerenderLimitObj 2), false) ∧
    replayHandler 2 5 (.ok "job2") = (6, .returns (replayLimitObj 2), false) :=
  ⟨C9_render_replay_quota.2.2.1 2 2 .ok (by decide),
   C9_render_replay_quota.2.2.2.1 2 5 (.ok "job2") (by decide)⟩

/-- C1 (amended): on the final-answer branch, if at least one critical
tool was invoked and none succeeded, the reported text is the templated
failure message (listing `name: error` for every failing critical tool
whose recorded error message is non-empty) and the terminal status is
`completed_with_errors`; otherwise the status is `completed` and the
model's non-empty text passes through verbatim, while an empty or missing
text is replaced by the fixed default completion message. -/
theorem C1_final_answer_reconciliation (content : Option String) (crit : List CritEntry) :
    (crit ≠ [] → (∀ c ∈ crit, c.success = false) →
      (reconcileFinal content crit).1 = antiHallucinationText crit ∧
      (reconcileFinal content crit).2 = "completed_with_errors" ∧
      (∀ c ∈ crit, pyTruthy c.errVal = true →
        strContains (antiHallucinationText crit) (c.tool ++ ": " ++ pyStr c.errVal) = true)) ∧
    ((crit = [] ∨ ∃ c ∈ crit, c.success = true) →
      (reconcileFinal content crit).2 = "completed" ∧
      (∀ str, content = some str → str ≠ "" → (reconcileFinal content crit).1 = str) ∧
      ((content = none ∨ content = some "") →
        (reconcileFinal content crit).1 = defaultFinalText)) := by
  constructor
  · intro hne hfail
    have hall : allCriticalFailed crit = true :=
      (allCriticalFailed_eq_true crit).mpr ⟨hne, hfail⟩
    refine ⟨?_, ?_, ?_⟩
    · simp [reconcileFinal, hall]
    · simp [reconcileFinal, hall]
    · intro c hc ht
      exact antiHallucination_lists crit c hc ht
  · intro hok
    have hall : allCriticalFailed crit = false := by
      rcases hok with rfl | ⟨c, hc, hs⟩
      · simp [allCriticalFailed]
      · rcases Bool.eq_false_or_eq_true (allCriticalFailed crit) with h | h
        · rcases (allCriticalFailed_eq_true crit).mp h with ⟨_, hforall⟩
          rw [hforall c hc] at hs
          cases hs
        · exact h
    refine ⟨?_, ?_, ?_⟩
    · simp [reconcileFinal, hall]
    · intro str hstr hne
      subst hstr
      simp [reconcileFinal, hall, hne]
    · intro hc
      rcases hc with rfl | rfl <;> simp [reconcileFinal, hall, defaultFinalText]

/-- C1 counterexample: (a) with no critical tool attempted and the model
replying the empty string, the reported text is the default completion
message, not the model's text verbatim; (b) with one failed critical tool
whose recorded error is the empty string, the templated message does not
mention the tool's name at all. -/
theorem C1_counterexample :
    (reconcileFinal (some "") []).1 = defaultFinalText ∧
    (reconcileFinal (some "") []).1 ≠ "" ∧
    (reconcileFinal (some "") []).2 = "completed" ∧
    strContains
      (reconcileFinal (some "ok, alterei o video")
        [⟨"modify_payload", false, .str ""⟩]).1 "modify_payload" = false ∧
    (reconcileFinal (some "ok, alterei o video")
        [⟨"modify_payload", false, .str ""⟩]).2 = "completed_with_errors" := by
  refine ⟨rfl, by decide, rfl, by decide, rfl⟩

/-- Witness for C1 on both branches. -/
theorem C1_witness :
    (reconcileFinal (some "consegui!") [⟨"re_render", false, .str "falhou"⟩]).1 =
      antiHallucinationText [⟨"re_render", false, .str "falhou"⟩] ∧
    (reconcileFinal (some "consegui!") [⟨"re_render", false, .str "falhou"⟩]).2 =
      "completed_with_errors" ∧
    strContains (antiHallucinationText [⟨"re_render", false, .str "falhou"⟩])
      ("re_render" ++ ": " ++ pyStr (.str "falhou")) = true ∧
    (reconcileFinal (some "tudo certo") []).2 = "completed" ∧
    (reconcileFinal (some "tudo certo") []).1 = "tudo certo" := by
  have h1 := (C1_final_answer_reconciliation (some "consegui!")
      [⟨"re_render", false, .str "falhou"⟩]).1
    (by simp)
    (by intro c hc; simp only [List.mem_singleton] at hc; subst hc; rfl)
  have h2 := (C1_final_answer_reconciliation (some "tudo certo") []).2 (Or.inl rfl)
  exact ⟨h1.1, h1.2.1,
    h1.2.2 ⟨"re_render", false, .str "falhou"⟩ (by simp) (by decide),
    h2.1, h2.2.1 "tudo certo" rfl (by decide)⟩

/-- C3: if the accumulated cost strictly exceeds the budget ceiling at the
start of an iteration, the loop issues no further model call and completes
the session as `budget_exceeded` (ledger and terminal event); the check
only runs before the model call, so the ceiling is soft — in the concrete
zero-budget run the first iteration's model call pushes the cost past the
ceiling, that iteration's tool call still executes, and only the next
iteration's gate stops the session. -/
theorem C3_budget_gate :
    (∀ (cfg : DirectorConfig) (resp : Nat → ModelStep) (route : Option String)
      (fuel iteration : Nat) (st : LoopSt),
      cfg.directorBudgetLimitUsd < st.totalCost →
      runIterations cfg resp route (fuel + 1) iteration st =
        { st with
            db := complete_session st.db "budget_exceeded" none
              (some (budgetErrorMessage st.totalCost cfg.directorBudgetLimitUsd)),
            events := st.events ++
              [.errorEv "budget_exceeded" (some iteration) (some st.totalCost)] }) ∧
    ((SandboxDirector.execute softCfg softResp none ⟨0, 0⟩).events =
      [.sessionCreated,
       .toolCall 1 "get_job_status" true 3 75000,
       .errorEv "budget_exceeded" (some 2) (some 75000)] ∧
      softCfg.directorBudgetLimitUsd < 75000 ∧
      (SandboxDirector.execute softCfg softResp none ⟨0, 0⟩).modelCalls = 1 ∧
      (SandboxDirector.execute softCfg softResp none ⟨0, 0⟩).db.session.status =
        "budget_exceeded") := by
  refine ⟨?_, by decide, by decide, by decide, by decide⟩
  intro cfg resp route fuel iteration st h
  rw [runIterations]
  exact if_pos h

/-- Witness for C3 at a state already past the ceiling. -/
theorem C3_witness :
    runIterations ⟨"gpt-4o-mini", 3, 2, 0⟩ (fun _ => .fail "unreached") none 3 1
      ⟨create_session, [.sessionCreated], ⟨0, 0⟩, 0, 0, 0, 0, 0, 1, 0, []⟩ =
      ⟨complete_session create_session "budget_exceeded" none
          (some (budgetErrorMessage 1 0)),
        [.sessionCreated, .errorEv "budget_exceeded" (some 1) (some 1)],
        ⟨0, 0⟩, 0, 0, 0, 0, 0, 1, 0, []⟩ :=
  C3_budget_gate.1 ⟨"gpt-4o-mini", 3, 2, 0⟩ (fun _ => .fail "unreached") none 2 1
    ⟨create_session, [.sessionCreated], ⟨0, 0⟩, 0, 0, 0, 0, 0, 1, 0, []⟩
    (by decide)

/-- C4 (amended): when every iteration's model reply requests at least one
tool call, all requested tool calls succeed, no final answer ever arrives
and the accumulated cost stays within the ceiling, the session ends via
the max-iterations epilogue: the terminal event carries status
`max_iterations` with the iteration count equal to the configured ceiling,
and the session ledger records the ceiling in `total_iterations` — but its
recorded terminal status is `error` (with message `Max iterations reached
(N)`), not `max_iterations`. -/
theorem C4_max_iterations (cfg : DirectorConfig) (resp : Nat → ModelStep)
    (route : Option String) (ts : ToolSt)
    (H : ∀ i, 1 ≤ i → i ≤ cfg.directorMaxIterations →
      ∃ u calls c, resp i = .reply u calls c ∧ calls ≠ [] ∧
        ∀ req ∈ calls, ∀ tst : ToolSt,
          hasError (registryExecute cfg.directorMaxRerenders cfg.directorMaxRerenders
            tst req).2 = false)
    (Hb : ∀ k, k < cfg.directorMaxIterations →
      runningCost cfg resp k ≤ cfg.directorBudgetLimitUsd) :
    (∃ cost, (SandboxDirector.execute cfg resp route ts).events.getLast? =
      some (.errorEv "max_iterations" (some cfg.directorMaxIterations) (some cost))) ∧
    (SandboxDirector.execute cfg resp route ts).db.session.status = "error" ∧
    (SandboxDirector.execute cfg resp route ts).db.session.error_message =
      some (maxIterationsMessage cfg.directorMaxIterations) ∧
    (SandboxDirector.execute cfg resp route ts).db.session.total_iterations =
      cfg.directorMaxIterations :=
  runIterations_all_tool_turns cfg resp route H Hb cfg.directorMaxIterations 1 _
    rfl (le_refl 1) rfl

/-- C4 counterexample: in the one-iteration all-tool-calls run the terminal
event says `max_iterations`, but the ledger's recorded terminal status is
`error`, not `max_iterations` as the claim states. -/
theorem C4_counterexample :
    (SandboxDirector.execute cx4Cfg cx4Resp none ⟨0, 0⟩).events.getLast? =
      some (.errorEv "max_iterations" (some 1) (some 0)) ∧
    (SandboxDirector.execute cx4Cfg cx4Resp none ⟨0, 0⟩).db.session.status = "error" ∧
    "error" ≠ "max_iterations" :=
  ⟨rfl, rfl, by decide⟩

/-- Witness for C4 on the concrete one-iteration script. -/
theorem C4_witness :
    (∃ cost, (SandboxDirector.execute cx4Cfg cx4Resp none ⟨0, 0⟩).events.getLast? =
      some (.errorEv "max_iterations" (some 1) (some cost))) ∧
    (SandboxDirector.execute cx4Cfg cx4Resp none ⟨0, 0⟩).db.session.status = "error" ∧
    (SandboxDirector.execute cx4Cfg cx4Resp none ⟨0, 0⟩).db.session.error_message =
      some (maxIterationsMessage 1) ∧
    (SandboxDirector.execute cx4Cfg cx4Resp none ⟨0, 0⟩).db.session.total_iterations = 1 :=
  C4_max_iterations cx4Cfg cx4Resp none ⟨0, 0⟩
    (by
      intro i h1 hle
      refine ⟨none, [⟨"get_job_status", .returns [("status", .str "done")], 3⟩], none,
        ?_, by simp, ?_⟩
      · rfl
      · intro req hm tst
        simp only [List.mem_singleton] at hm
        subst hm
        rfl)
    (by
      intro k hk
      have hk1 : k < 1 := hk
      have hk0 : k = 0 := by omega
      subst hk0
      decide)

/-- C10: the session row's aggregate counters are flushed only on the
final-answer and max-iterations termination paths; when the run terminates
as `budget_exceeded`, model-call `error` or `circuit_breaker`, the row is
completed with its counters and summary still at their creation defaults,
and only status, error message and completion timestamp are written
(`LedgerOK` spells out exactly this correspondence). -/
theorem C10_counters_frame (cfg : DirectorConfig) (resp : Nat → ModelStep)
    (route : Option String) (ts : ToolSt) :
    LedgerOK cfg (SandboxDirector.execute cfg resp route ts) :=
  runIterations_ledger cfg resp route cfg.directorMaxIterations 1
    ⟨create_session, [.sessionCreated], ts, 0, 0, 0, 0, 0, 0, 0, []⟩
    ⟨rfl, rfl, rfl, rfl, rfl, rfl, rfl⟩

/-- Witness for C10 on the concrete circuit-breaker run. -/
theorem C10_witness :
    countersUntouched (SandboxDirector.execute w2Cfg w2Resp none ⟨0, 0⟩).db.session ∧
    (SandboxDirector.execute w2Cfg w2Resp none ⟨0, 0⟩).db.session.status = "error" ∧
    (SandboxDirector.execute w2Cfg w2Resp none ⟨0, 0⟩).db.session.completed_at_set =
      true :=
  have h := (C10_counters_frame w2Cfg w2Resp none ⟨0, 0⟩).2.2.1 rfl
  ⟨h.1, h.2.1, h.2.2.2⟩

/-- C2: reconstructing the consecutive-failure counter from the run's
event trace (reset by a successful tool call, incremented by a failed
one), every executed tool call happens with the counter strictly below the
threshold of 3 — so no tool call is executed after the third consecutive
failure, including the remaining requests of the same assistant turn —
and the third consecutive failure is followed by exactly the
`circuit_breaker` terminal event and nothing else. -/
theorem C2_circuit_breaker (cfg : DirectorConfig) (resp : Nat → ModelStep)
    (route : Option String) (ts : ToolSt) :
    (∀ pre e post,
      (SandboxDirector.execute cfg resp route ts).events = pre ++ e :: post →
      e.isToolCall = true → consecAfter 0 pre < MAX_CONSECUTIVE_FAILURES) ∧
    (∀ pre e post,
      (SandboxDirector.execute cfg resp route ts).events = pre ++ e :: post →
      e.isToolCall = true →
      MAX_CONSECUTIVE_FAILURES ≤ consecAfter 0 (pre ++ [e]) →
      ∃ it c, post = [.errorEv "circuit_breaker" (some it) (some c)]) := by
  obtain ⟨ext, out, hev, hch⟩ := runIterations_chain cfg resp route
    cfg.directorMaxIterations 1
    ⟨create_session, [.sessionCreated], ts, 0, 0, 0, 0, 0, 0, 0, []⟩
    (show (0:Nat) < MAX_CONSECUTIVE_FAILURES by decide)
  have hch' : ChainOK 0 ((SandboxDirector.execute cfg resp route ts).events) out := by
    show ChainOK 0 ((runIterations cfg resp route cfg.directorMaxIterations 1
      ⟨create_session, [.sessionCreated], ts, 0, 0, 0, 0, 0, 0, 0, []⟩).events) out
    rw [hev]
    exact hch
  constructor
  · intro pre e post hsplit htool
    exact ChainOK_noToolPast 0 _ out hch' pre e post hsplit htool
  · intro pre e post hsplit htool hge
    exact ChainOK_breakImmediate 0 _ out hch' pre e post hsplit htool hge

/-- Witness for C2 on the concrete three-failure turn: the breaker fires
after the third consecutive failure and the fourth requested call of the
same turn is abandoned. -/
theorem C2_witness :
    (SandboxDirector.execute w2Cfg w2Resp none ⟨0, 0⟩).events =
      [.sessionCreated,
       .toolCall 1 "modify_payload" false 1 0,
       .toolCall 1 "modify_payload" false 1 0,
       .toolCall 1 "modify_payload" false 1 0,
       .errorEv "circuit_breaker" (some 1) (some 0)] ∧
    (∃ it c, [Event.errorEv "circuit_breaker" (some 1) (some 0)] =
      [Event.errorEv "circuit_breaker" (some it) (some c)]) := by
  refine ⟨rfl, ?_⟩
  exact (C2_circuit_breaker w2Cfg w2Resp none ⟨0, 0⟩).2
    [.sessionCreated, .toolCall 1 "modify_payload" false 1 0,
     .toolCall 1 "modify_payload" false 1 0]
    (.toolCall 1 "modify_payload" false 1 0)
    [.errorEv "circuit_breaker" (some 1) (some 0)]
    rfl rfl (by decide)

/-- C5: `DirectorRouter.classify` falls back to the `payload` route when the
parsed reply's `route` field is missing, non-string, or outside the closed
set, and when the whole call raised it returns `payload` with the failure
recorded in `reason` and both token counts zero. -/
theorem C5_router_fallback :
    (∀ (fields : List (String × Json)) (usage : Option Usage),
      (∀ s, jget fields "route" = some (.str s) → s ∉ VALID_ROUTES) →
      (classify (.parsed (.obj fields) usage)).route = "payload") ∧
    (∀ msg, classify (.raised msg) =
      ⟨"payload", .str ("Router error, fallback: " ++ msg), 0, 0⟩) := by
  constructor
  · intro fields usage h
    unfold classify
    cases hr : jget fields "route" with
    | none => simp [hr, VALID_ROUTES]
    | some v =>
        cases v with
        | str s =>
            have hs := h s hr
            simp [hr, hs]
        | num n => simp [hr]
        | bool b => simp [hr]
        | null => simp [hr]
        | arr l => simp [hr]
        | obj l => simp [hr]
  · intro msg
    rfl

/-- Witness for C5 at a reply lacking the `route` field. -/
theorem C5_witness :
    (classify (.parsed (.obj [("reason", .str "unclear")]) none)).route = "payload" :=
  C5_router_fallback.1 [("reason", .str "unclear")] none
    (by intro s hs; simp [jget, List.find?] at hs)

/-- C6: `ToolRegistry.execute` returns an error dict for an unregistered
name, converts a raised exception into an error dict carrying the
exception's type name and message, and passes a returned dict through —
it never propagates an exception (it is a total function of the handler's
outcome). -/
theorem C6_registry_execute_total :
    (∀ (r : ToolRegistry) (name : String) (args : Obj),
      dictGet r.handlers name = none →
      r.execute name args =
        [("error", .str ("Tool \x27" ++ name ++ "\x27 não encontrada"))]) ∧
    (∀ (r : ToolRegistry) (name : String) (args : Obj) (h : Handler) (ty msg : String),
      dictGet r.handlers name = some h → h args = .raises ty msg →
      r.execute name args = [("error", .str (ty ++ ": " ++ msg))]) ∧
    (∀ (r : ToolRegistry) (name : String) (args : Obj) (h : Handler) (res : Obj),
      dictGet r.handlers name = some h → h args = .returns res →
      r.execute name args = res) ∧
    (∀ s : String, hasError [("error", .str s)] = true) := by
  refine ⟨?_, ?_, ?_, ?_⟩
  · intro r name args hn
    simp [ToolRegistry.execute, hn]
  · intro r name args h ty msg hh hr
    simp [ToolRegistry.execute, hh, hr]
  · intro r name args h res hh hr
    simp [ToolRegistry.execute, hh, hr]
  · intro s
    rfl

/-- Witness for C6: a one-tool registry whose handler raises, and a lookup
of a name that is not registered. -/
theorem C6_witness :
    (ToolRegistry.empty.register "boom" "d" .null
        (fun _ => .raises "ValueError" "bad input")).execute "boom" [] =
      [("error", .str "ValueError: bad input")] ∧
    (ToolRegistry.empty.register "boom" "d" .null
        (fun _ => .raises "ValueError" "bad input")).execute "missing" [] =
      [("error", .str "Tool \x27missing\x27 não encontrada")] :=
  ⟨C6_registry_execute_total.2.1 _ "boom" [] _ "ValueError" "bad input" rfl rfl,
   C6_registry_execute_total.1 _ "missing" [] rfl⟩

/-- C7 counterexample: registering the same name twice does not fail — the
second registration silently replaces the first one's schema and handler
(the registry still holds a single entry for the name, now the new one). -/
theorem C7_counterexample :
    dictGet ((ToolRegistry.empty.register "t" "d1" .null
        (fun _ => .returns [("v", .num 1)])).register "t" "d2" .null
        (fun _ => .returns [("v", .num 2)])).tools "t" = some ⟨"d2", .null⟩ ∧
    ((ToolRegistry.empty.register "t" "d1" .null
        (fun _ => .returns [("v", .num 1)])).register "t" "d2" .null
        (fun _ => .returns [("v", .num 2)])).tools.length = 1 ∧
    ((ToolRegistry.empty.register "t" "d1" .null
        (fun _ => .returns [("v", .num 1)])).register "t" "d2" .null
        (fun _ => .returns [("v", .num 2)])).execute "t" [] = [("v", .num 2)] :=
  ⟨rfl, rfl, rfl⟩

/-- C7 (amended): `ToolRegistry.register` never fails; registering a name
that is already present replaces the stored schema and handler in place,
without growing the registry. -/
theorem C7_register_replaces :
    (∀ (r : ToolRegistry) (name d : String) (p : Json) (h : Handler),
      dictGet (r.register name d p h).tools name = some ⟨d, p⟩) ∧
    (∀ (r : ToolRegistry) (name d : String) (p : Json) (h : Handler),
      dictGet (r.register name d p h).handlers name = some h) ∧
    (∀ (r : ToolRegistry) (name d : String) (p : Json) (h : Handler),
      (dictGet r.tools name).isSome = true →
      (r.register name d p h).tools.length = r.tools.length) := by
  refine ⟨?_, ?_, ?_⟩
  · intro r name d p h
    exact dictGet_dictInsert_self r.tools name ⟨d, p⟩
  · intro r name d p h
    exact dictGet_dictInsert_self r.handlers name h
  · intro r name d p h hs
    exact dictInsert_length_of_isSome r.tools name ⟨d, p⟩ hs

/-- Witness for C7 at a registry that already holds the name. -/
theorem C7_witness :
    (dictGet (ToolRegistry.empty.register "t" "d1" .null
        (fun _ => .returns [])).tools "t").isSome = true ∧
    ((ToolRegistry.empty.register "t" "d1" .null
        (fun _ => .returns [])).register "t" "d2" .null
        (fun _ => .returns [])).tools.length =
      (ToolRegistry.empty.register "t" "d1" .null
        (fun _ => .returns [])).tools.length :=
  ⟨rfl, C7_register_replaces.2.2 _ "t" "d2" .null _ rfl⟩

/-- C8 counterexample: `get_job_status` belongs to both Specialists'
allowed tool sets, so the two configurations are not disjoint. -/
theorem C8_counterexample :
    "get_job_status" ∈ PAYLOAD_TOOLS ∧ "get_job_status" ∈ REPLAY_TOOLS := by
  constructor <;> simp [PAYLOAD_TOOLS, REPLAY_TOOLS]

/-- C8 (amended): the two Specialists' tool sets overlap exactly in the
read-only `get_job_status` tool; every other tool belongs to at most one
of the two sets. -/
theorem C8_overlap_only_get_job_status :
    ∀ t, t ∈ PAYLOAD_TOOLS → t ∈ REPLAY_TOOLS → t = "get_job_status" := by
  intro t h1 h2
  simp only [PAYLOAD_TOOLS, List.mem_cons, List.not_mem_nil, or_false] at h1
  rcases h1 with h | h | h | h | h | h <;> subst h <;> revert h2 <;> decide

/-- Witness for C8 at the shared tool name. -/
theorem C8_witness :
    "get_job_status" = "get_job_status" :=
  C8_overlap_only_get_job_status "get_job_status"
    (by simp [PAYLOAD_TOOLS]) (by simp [REPLAY_TOOLS])

end VSD
